import Mathlib

/-!
Shallow embedding of the inspection completeness and metadata-consistency
subsystem of the venue-inspection application.

The definitions below are translated from the Python sources under
`lambda/save_inspection/`:

* `check_inspection_complete`   — `completeness.py`
* `handle_get_inspection_summary` core loop — `summary.py`
* `handle_save_inspection`      — `handler.py` (with `metadata.py` store calls)
* `handle_list_inspections`     — `list_inspections.py`

The DynamoDB tables are modelled as association lists inside a `Store`
value; each handler is a pure function from (store, inputs) to
(response, store).  Python's falsy/truthy semantics on optional string
attributes (`x or y`, `if x:`) are modelled explicitly by `truthy`/`pyOr`.
-/

namespace InspectionApp

/-- Python truthiness of an optional string attribute: present and non-empty. -/
def truthy : Option String → Bool
  | none => false
  | some s => !s.isEmpty

/-- Python `a or b` for optional string attributes (keeps `a` when truthy). -/
def pyOr (a b : Option String) : Option String := if truthy a then a else b

/-- Attribute value with Python's `x or ''` fallback: empty string when falsy. -/
def tval (a : Option String) : String := a.getD ""

/-- ASCII lowercasing of one character, as Python's `str.lower` acts on the
ASCII status strings this subsystem compares. -/
def lowerChar (c : Char) : Char :=
  if 65 ≤ c.toNat ∧ c.toNat ≤ 90 then Char.ofNat (c.toNat + 32) else c

/-- ASCII lowercasing of a string (`str.lower` on the status values). -/
def lowerStr (s : String) : String := ⟨s.data.map lowerChar⟩

/-- Lowercase status normalization `(x.get('status') or '').lower()`. -/
def normStatus (s : Option String) : String := lowerStr (tval s)

/-- Association-list get, modelling a keyed DynamoDB read. -/
def assocGet {κ α : Type} [DecidableEq κ] : List (κ × α) → κ → Option α
  | [], _ => none
  | (k, v) :: rest, x => if k = x then some v else assocGet rest x

/-- Association-list put, modelling a keyed DynamoDB write (replace or append). -/
def assocPut {κ α : Type} [DecidableEq κ] : List (κ × α) → κ → α → List (κ × α)
  | [], k, v => [(k, v)]
  | (k0, v0) :: rest, k, v =>
      if k0 = k then (k, v) :: rest else (k0, v0) :: assocPut rest k v

/-- One checklist item inside a room of a venue definition. -/
structure VenueItem where
  itemId : Option String := none
  id : Option String := none
deriving Repr, DecidableEq

/-- One room of a venue definition. -/
structure VenueRoom where
  roomId : Option String := none
  id : Option String := none
  items : List VenueItem := []
deriving Repr, DecidableEq

/-- A venue definition: ordered list of rooms, each with its items. -/
structure Venue where
  rooms : List VenueRoom := []
deriving Repr, DecidableEq

/-- The Expected Set computation of `check_inspection_complete`
(`completeness.py` lines 22-29): flatten rooms, take
`roomId or id` per room and `itemId or id` per item, keep pairs where
both are truthy. -/
def expectedOfVenue (v : Venue) : List (String × String) :=
  v.rooms.flatMap fun r =>
    let rid := pyOr r.roomId r.id
    r.items.filterMap fun it =>
      let iid := pyOr it.itemId it.id
      if truthy rid && truthy iid then some (tval rid, tval iid) else none

/-- One stored record of the `InspectionItems` table, with every attribute
the handlers read (canonical names and their aliases). -/
structure ItemRecord where
  sk : Option String := none
  itemId : Option String := none
  item : Option String := none
  ItemId : Option String := none
  status : Option String := none
  roomId : Option String := none
  room_id : Option String := none
  room : Option String := none
  itemName : Option String := none
  roomName : Option String := none
  comments : Option String := none
  createdAt : Option String := none
  updatedAt : Option String := none
  venueId : Option String := none
  venueName : Option String := none
deriving Repr, DecidableEq

/-- Cached per-status counters `{pass, fail, na, pending, total}`. -/
structure Counts where
  pass : Nat := 0
  fail : Nat := 0
  na : Nat := 0
  pending : Nat := 0
  total : Nat := 0
deriving Repr, DecidableEq

/-- One stored record of the `InspectionMetadata` table, with every attribute
the handlers read (canonical names and their aliases). -/
structure MetaRecord where
  inspection_id : Option String := none
  inspectionId : Option String := none
  id : Option String := none
  status : Option String := none
  venueId : Option String := none
  venue_id : Option String := none
  venueName : Option String := none
  venue_name : Option String := none
  createdBy : Option String := none
  created_by : Option String := none
  updatedBy : Option String := none
  updated_by : Option String := none
  createdAt : Option String := none
  created_at : Option String := none
  updatedAt : Option String := none
  updated_at : Option String := none
  completedAt : Option String := none
  completed_at : Option String := none
  totals : Option Counts := none
  byRoom : Option (List (String × Counts)) := none
  by_room : Option (List (String × Counts)) := none
deriving Repr, DecidableEq

/-- The three DynamoDB tables the subsystem touches.  Item records are keyed
by `(inspectionId, sortKey)`; metadata and venue definitions by their id. -/
structure Store where
  items : List ((String × String) × ItemRecord) := []
  metas : List (String × MetaRecord) := []
  venues : List (String × Venue) := []
deriving Repr, DecidableEq

def Store.getMeta (s : Store) (iid : String) : Option MetaRecord :=
  assocGet s.metas iid

def Store.putMeta (s : Store) (iid : String) (m : MetaRecord) : Store :=
  { s with metas := assocPut s.metas iid m }

def Store.getItem (s : Store) (k : String × String) : Option ItemRecord :=
  assocGet s.items k

def Store.putItem (s : Store) (k : String × String) (r : ItemRecord) : Store :=
  { s with items := assocPut s.items k r }

/-- `table.query(KeyConditionExpression=Key(pk).eq(inspection_id))`: every
item record of the inspection. -/
def Store.queryItems (s : Store) (iid : String) : List ItemRecord :=
  (s.items.filter fun kv => decide (kv.1.1 = iid)).map Prod.snd

/-- `vresp.get('Item') or {}` on the `VenueRooms` table: a missing venue
reads as an empty definition. -/
def Store.getVenue (s : Store) (vid : String) : Venue :=
  (assocGet s.venues vid).getD {}

/-- One entry of the `missing` list of a completeness result. -/
structure MissingEntry where
  roomId : String
  itemId : String
  found : Option String
deriving Repr, DecidableEq

/-- The result dict of `check_inspection_complete`; `none` fields model
keys absent from the returned dict. -/
structure CompletenessResult where
  complete : Bool
  reason : Option String := none
  missing : Option (List MissingEntry) := none
  total_expected : Option Nat := none
  completed_count : Option Nat := none
deriving Repr, DecidableEq

/-- The `status_map` built by `check_inspection_complete` (lines 48-57):
`(roomId, itemId) -> lowercased status` for items where both keys are
truthy; a later record overwrites an earlier one with the same pair. -/
def statusMapOf (items : List ItemRecord) : List ((String × String) × String) :=
  items.foldl
    (fun m it =>
      if truthy it.roomId && truthy it.itemId then
        assocPut m (tval it.roomId, tval it.itemId) (normStatus it.status)
      else m)
    []

/-- The `pass_count` accumulated alongside the status map. -/
def passCountOf (items : List ItemRecord) : Nat :=
  items.countP fun it =>
    truthy it.roomId && truthy it.itemId && decide (normStatus it.status = "pass")

/-- The Expected Set of a venue id read through the store. -/
def expectedOf (s : Store) (venue_id : String) : List (String × String) :=
  expectedOfVenue (s.getVenue venue_id)

/-- Translation of `check_inspection_complete` (`completeness.py`): empty
Expected Set short-circuits; otherwise the first expected pair whose mapped
status is not exactly `pass` is returned alone in `missing`. -/
def check_inspection_complete (s : Store) (inspection_id venue_id : String) :
    CompletenessResult :=
  if (expectedOf s venue_id).length = 0 then
    { complete := false, reason := some "no expected items found",
      total_expected := some 0 }
  else
    match (expectedOf s venue_id).find?
        (fun p => decide (assocGet (statusMapOf (s.queryItems inspection_id)) p ≠ some "pass")) with
    | some p =>
        { complete := false,
          missing := some [⟨p.1, p.2, assocGet (statusMapOf (s.queryItems inspection_id)) p⟩],
          total_expected := some (expectedOf s venue_id).length,
          completed_count := some (passCountOf (s.queryItems inspection_id)) }
    | none =>
        { complete := true,
          missing := some [],
          total_expected := some (expectedOf s venue_id).length,
          completed_count := some (passCountOf (s.queryItems inspection_id)) }

lemma find?_eq_none_of_all {α : Type} {p : α → Bool} {l : List α}
    (h : ∀ x ∈ l, p x = false) : l.find? p = none := by
  induction l with
  | nil => rfl
  | cons a t ih =>
      rw [List.find?_cons, h a (List.mem_cons_self a t)]
      exact ih fun x hx => h x (List.mem_cons_of_mem a hx)

lemma find?_append_cons {α : Type} {p : α → Bool} {l1 l2 : List α} {x : α}
    (h1 : ∀ y ∈ l1, p y = false) (hx : p x = true) :
    (l1 ++ x :: l2).find? p = some x := by
  induction l1 with
  | nil => simp [List.find?_cons, hx]
  | cons a t ih =>
      rw [List.cons_append, List.find?_cons, h1 a (List.mem_cons_self a t)]
      exact ih fun y hy => h1 y (List.mem_cons_of_mem a hy)

/-- C1: for a venue whose Expected Set is non-empty, the completeness check
returns `complete = true` exactly when every expected `(roomId, itemId)`
pair maps to the normalized status `pass` in the inspection's status map;
any pair mapped to another status, or absent, yields `complete = false`. -/
theorem c1_complete_iff_all_pass (s : Store) (iid vid : String)
    (h : expectedOf s vid ≠ []) :
    (check_inspection_complete s iid vid).complete = true ↔
      ∀ p ∈ expectedOf s vid,
        assocGet (statusMapOf (s.queryItems iid)) p = some "pass" := by
  unfold check_inspection_complete
  have hlen : ¬ (expectedOf s vid).length = 0 := by
    simpa [List.length_eq_zero] using h
  rw [if_neg hlen]
  cases hfind : (expectedOf s vid).find?
      (fun p => decide (assocGet (statusMapOf (s.queryItems iid)) p ≠ some "pass")) with
  | none =>
      constructor
      · intro _ p hp
        have := List.find?_eq_none.mp hfind p hp
        simpa using this
      · intro _; rfl
  | some p =>
      constructor
      · intro hfalse; cases hfalse
      · intro hall
        have hmem := List.mem_of_find?_eq_some hfind
        have hpred := List.find?_some hfind
        have : assocGet (statusMapOf (s.queryItems iid)) p ≠ some "pass" := by
          simpa using hpred
        exact absurd (hall p hmem) this

/-- Witness for C1 at a concrete store: one room with one item, recorded
as pass. -/
theorem c1_complete_iff_all_pass_witness :
    (expectedOf (Store.mk
        [(("X", "R1#i1"), { roomId := some "R1", itemId := some "i1",
                            status := some "Pass" })]
        []
        [("V", ⟨[⟨some "R1", none, [⟨some "i1", none⟩]⟩]⟩)]) "V" ≠ []) ∧
    (check_inspection_complete (Store.mk
        [(("X", "R1#i1"), { roomId := some "R1", itemId := some "i1",
                            status := some "Pass" })]
        []
        [("V", ⟨[⟨some "R1", none, [⟨some "i1", none⟩]⟩]⟩)]) "X" "V").complete = true := by
  refine ⟨by decide, ?_⟩
  exact (c1_complete_iff_all_pass _ "X" "V" (by decide)).mpr (by decide)

/-- C4: when the venue definition is absent or yields zero `(roomId, itemId)`
pairs, the completeness check returns exactly
`{complete: false, reason: 'no expected items found', total_expected: 0}`,
whatever item records exist. -/
theorem c4_empty_expected_guard (s : Store) (iid vid : String)
    (h : expectedOf s vid = []) :
    check_inspection_complete s iid vid =
      { complete := false, reason := some "no expected items found",
        total_expected := some 0 } := by
  unfold check_inspection_complete
  rw [h]
  rfl

/-- Witness for C4: unknown venue id, store holding an unrelated item. -/
theorem c4_empty_expected_guard_witness :
    (expectedOf (Store.mk
        [(("X", "R1#i1"), { roomId := some "R1", itemId := some "i1",
                            status := some "pass" })] [] []) "V" = []) ∧
    check_inspection_complete (Store.mk
        [(("X", "R1#i1"), { roomId := some "R1", itemId := some "i1",
                            status := some "pass" })] [] []) "X" "V" =
      { complete := false, reason := some "no expected items found",
        total_expected := some 0 } := by
  refine ⟨by decide, ?_⟩
  exact c4_empty_expected_guard _ "X" "V" (by decide)

/-- C3 counterexample: venue V has one room R1 with items i1 and i2, and no
item record is stored, so both pairs are unsatisfied; yet `missing` lists
only the first pair and no entry for i2 — refuting the claim that every
unsatisfied pair is listed. -/
theorem c3_missing_counterexample :
    (("R1", "i2") ∈ expectedOf (Store.mk [] []
        [("V", ⟨[⟨some "R1", none, [⟨some "i1", none⟩, ⟨some "i2", none⟩]⟩]⟩)]) "V") ∧
    assocGet (statusMapOf ((Store.mk [] []
        [("V", ⟨[⟨some "R1", none, [⟨some "i1", none⟩, ⟨some "i2", none⟩]⟩]⟩)]).queryItems "X"))
        ("R1", "i2") ≠ some "pass" ∧
    (check_inspection_complete (Store.mk [] []
        [("V", ⟨[⟨some "R1", none, [⟨some "i1", none⟩, ⟨some "i2", none⟩]⟩]⟩)]) "X" "V").complete
      = false ∧
    ∀ e ∈ ((check_inspection_complete (Store.mk [] []
        [("V", ⟨[⟨some "R1", none, [⟨some "i1", none⟩, ⟨some "i2", none⟩]⟩]⟩)]) "X" "V").missing).getD [],
      e.itemId ≠ "i2" := by
  decide

/-- C3 amended: when at least one expected pair is unsatisfied, the result is
`complete = false` and `missing` holds exactly the first unsatisfied pair in
Expected Set order, with the status found for it (`none` when absent). -/
theorem c3_missing_first_unsatisfied (s : Store) (iid vid : String)
    (e1 e2 : List (String × String)) (r i : String)
    (hE : expectedOf s vid = e1 ++ (r, i) :: e2)
    (hpre : ∀ q ∈ e1, assocGet (statusMapOf (s.queryItems iid)) q = some "pass")
    (hun : assocGet (statusMapOf (s.queryItems iid)) (r, i) ≠ some "pass") :
    (check_inspection_complete s iid vid).complete = false ∧
    (check_inspection_complete s iid vid).missing =
      some [⟨r, i, assocGet (statusMapOf (s.queryItems iid)) (r, i)⟩] := by
  unfold check_inspection_complete
  have hlen : ¬ (expectedOf s vid).length = 0 := by
    rw [hE]; simp
  rw [if_neg hlen]
  have hfind : (expectedOf s vid).find?
      (fun p => decide (assocGet (statusMapOf (s.queryItems iid)) p ≠ some "pass"))
      = some (r, i) := by
    rw [hE]
    exact find?_append_cons
      (fun y hy => by simpa using hpre y hy)
      (by simpa using hun)
  rw [hfind]
  exact ⟨rfl, rfl⟩

/-- Witness for the amended C3 at the counterexample's store. -/
theorem c3_missing_first_unsatisfied_witness :
    (check_inspection_complete (Store.mk [] []
        [("V", ⟨[⟨some "R1", none, [⟨some "i1", none⟩, ⟨some "i2", none⟩]⟩]⟩)]) "X" "V").complete
      = false ∧
    (check_inspection_complete (Store.mk [] []
        [("V", ⟨[⟨some "R1", none, [⟨some "i1", none⟩, ⟨some "i2", none⟩]⟩]⟩)]) "X" "V").missing
      = some [⟨"R1", "i1", none⟩] := by
  have h := c3_missing_first_unsatisfied (Store.mk [] []
      [("V", ⟨[⟨some "R1", none, [⟨some "i1", none⟩, ⟨some "i2", none⟩]⟩]⟩)]) "X" "V"
      [] [("R1", "i2")] "R1" "i1" (by decide) (by decide) (by decide)
  exact ⟨h.1, h.2⟩

/-! ### Summary aggregator (`summary.py`) -/

/-- Skip/keep test of the summary loop: rows whose sort-key attribute is
`__meta__` (when the table has a sort key) and rows without any of the
item-id attributes (`itemId`, `item`, `ItemId`) are skipped. -/
def summaryCounted (skAttr : Bool) (r : ItemRecord) : Bool :=
  !(skAttr && decide (r.sk = some "__meta__")) &&
    truthy (pyOr (pyOr r.itemId r.item) r.ItemId)

/-- The summary's status of a record: `(it.get('status') or 'pending').lower()`. -/
def statusOfRec (r : ItemRecord) : String :=
  lowerStr (tval (pyOr r.status (some "pending")))

/-- The summary's room id of a record:
`it.get('roomId') or it.get('room_id') or it.get('room') or ''`. -/
def ridOf (r : ItemRecord) : String :=
  tval (pyOr (pyOr r.roomId r.room_id) r.room)

/-- One pass of the `total += 1` plus if/elif status bucketing. -/
def bucketInc (c : Counts) (st : String) : Counts :=
  if st = "pass" then { c with pass := c.pass + 1, total := c.total + 1 }
  else if st = "fail" then { c with fail := c.fail + 1, total := c.total + 1 }
  else if st = "na" then { c with na := c.na + 1, total := c.total + 1 }
  else { c with pending := c.pending + 1, total := c.total + 1 }

/-- `by_room.setdefault(rid, zeroes)` followed by bucketing into that room. -/
def updateRoom : List (String × Counts) → String → String → List (String × Counts)
  | [], rid, st => [(rid, bucketInc {} st)]
  | (k, c) :: rest, rid, st =>
      if k = rid then (k, bucketInc c st) :: rest
      else (k, c) :: updateRoom rest rid st

/-- The `{totals, byRoom}` pair computed by the summary handler. -/
structure SummaryData where
  totals : Counts := {}
  byRoom : List (String × Counts) := []
deriving Repr, DecidableEq

/-- One iteration of the summary loop over an item record. -/
def summaryStep (skAttr : Bool) (acc : SummaryData) (r : ItemRecord) : SummaryData :=
  if summaryCounted skAttr r then
    { totals := bucketInc acc.totals (statusOfRec r),
      byRoom :=
        if ridOf r = "" then acc.byRoom
        else updateRoom acc.byRoom (ridOf r) (statusOfRec r) }
  else acc

/-- The summary loop of `handle_get_inspection_summary` over the queried
item records. -/
def computeSummary (skAttr : Bool) (items : List ItemRecord) : SummaryData :=
  items.foldl (summaryStep skAttr) {}

/-- Core of `handle_get_inspection_summary` (`summary.py`): the modelled
`InspectionItems` table has a sort key, so the `__meta__` skip is active. -/
def handle_get_inspection_summary (s : Store) (inspection_id : String) : SummaryData :=
  computeSummary true (s.queryItems inspection_id)

/-- Records the summary loop actually counts. -/
def countedItems (skAttr : Bool) (items : List ItemRecord) : List ItemRecord :=
  items.filter (summaryCounted skAttr)

/-- Specification-level counts of a list of status strings. -/
def countsOfStatuses (sts : List String) : Counts :=
  { pass := sts.countP fun st => decide (st = "pass"),
    fail := sts.countP fun st => decide (st ≠ "pass" ∧ st = "fail"),
    na := sts.countP fun st => decide (st ≠ "pass" ∧ st ≠ "fail" ∧ st = "na"),
    pending := sts.countP fun st => decide (st ≠ "pass" ∧ st ≠ "fail" ∧ st ≠ "na"),
    total := sts.length }

lemma foldl_bucketInc (sts : List String) : ∀ c : Counts,
    List.foldl bucketInc c sts =
      { pass := c.pass + (countsOfStatuses sts).pass,
        fail := c.fail + (countsOfStatuses sts).fail,
        na := c.na + (countsOfStatuses sts).na,
        pending := c.pending + (countsOfStatuses sts).pending,
        total := c.total + (countsOfStatuses sts).total } := by
  induction sts with
  | nil => intro c; simp [countsOfStatuses]
  | cons st rest ih =>
      intro c
      rw [List.foldl_cons, ih]
      by_cases h1 : st = "pass"
      · simp [countsOfStatuses, bucketInc, h1, List.countP_cons]
        omega
      · by_cases h2 : st = "fail"
        · simp [countsOfStatuses, bucketInc, h1, h2, List.countP_cons]
          omega
        · by_cases h3 : st = "na"
          · simp [countsOfStatuses, bucketInc, h1, h2, h3, List.countP_cons]
            omega
          · simp [countsOfStatuses, bucketInc, h1, h2, h3, List.countP_cons]
            omega

lemma totals_foldl (sk : Bool) (l : List ItemRecord) : ∀ acc : SummaryData,
    (List.foldl (summaryStep sk) acc l).totals =
      List.foldl bucketInc acc.totals ((countedItems sk l).map statusOfRec) := by
  induction l with
  | nil => intro acc; simp [countedItems]
  | cons a t ih =>
      intro acc
      by_cases h : summaryCounted sk a
      · rw [List.foldl_cons, ih]
        simp [countedItems, summaryStep, h]
      · rw [List.foldl_cons, ih]
        simp [countedItems, summaryStep, h]

lemma foldl_bucketInc_zero (sts : List String) :
    List.foldl bucketInc {} sts = countsOfStatuses sts := by
  rw [foldl_bucketInc]
  generalize countsOfStatuses sts = c
  cases c
  simp

lemma lookup_updateRoom (br : List (String × Counts)) (rid st x : String) :
    assocGet (updateRoom br rid st) x =
      if x = rid then some (bucketInc ((assocGet br x).getD {}) st)
      else assocGet br x := by
  induction br with
  | nil =>
      by_cases hx : x = rid
      · simp [updateRoom, assocGet, hx]
      · simp [updateRoom, assocGet, hx, Ne.symm hx]
  | cons p rest ih =>
      obtain ⟨k, c⟩ := p
      by_cases hk : k = rid
      · subst hk
        by_cases hx : x = k
        · subst hx
          simp [updateRoom, assocGet]
        · simp [updateRoom, assocGet, hx, Ne.symm hx]
      · by_cases hx : k = x
        · subst hx
          simp [updateRoom, assocGet, hk]
        · simp [updateRoom, assocGet, hk, hx, ih]

/-- Records of the loop that contribute to room `x`. -/
def roomRecords (sk : Bool) (x : String) (items : List ItemRecord) :
    List ItemRecord :=
  items.filter fun r => summaryCounted sk r && decide (ridOf r = x)

lemma byRoom_foldl (sk : Bool) (x : String) (hx : x ≠ "") (l : List ItemRecord) :
    ∀ acc : SummaryData,
    assocGet (List.foldl (summaryStep sk) acc l).byRoom x =
      List.foldl (fun oc st => some (bucketInc (oc.getD {}) st))
        (assocGet acc.byRoom x) ((roomRecords sk x l).map statusOfRec) := by
  induction l with
  | nil => intro acc; simp [roomRecords]
  | cons a t ih =>
      intro acc
      rw [List.foldl_cons, ih]
      by_cases h : summaryCounted sk a
      · by_cases hr : ridOf a = x
        · have hra : ¬ (ridOf a = "") := by rw [hr]; exact hx
          have hcond : (summaryCounted sk a && decide (ridOf a = x)) = true := by
            simp [h, hr]
          simp only [roomRecords, List.filter_cons, hcond, if_true,
            List.map_cons, List.foldl_cons]
          simp only [summaryStep, h, if_true, if_neg hra]
          rw [lookup_updateRoom, if_pos hr.symm]
        · have hcond : (summaryCounted sk a && decide (ridOf a = x)) = false := by
            simp [hr]
          simp only [roomRecords, List.filter_cons, hcond, if_false]
          by_cases hra : ridOf a = ""
          · simp only [summaryStep, h, if_true, if_pos hra]
            rfl
          · simp only [summaryStep, h, if_true, if_neg hra]
            rw [lookup_updateRoom, if_neg (fun hh => hr hh.symm)]
            rfl
      · have hcond : (summaryCounted sk a && decide (ridOf a = x)) = false := by
          simp [h]
        simp only [roomRecords, List.filter_cons, hcond, if_false]
        simp only [summaryStep, h, if_false]
        rfl

lemma optionFold_some (sts : List String) : ∀ c : Counts,
    List.foldl (fun oc st => some (bucketInc (oc.getD {}) st)) (some c) sts =
      some (List.foldl bucketInc c sts) := by
  induction sts with
  | nil => intro c; rfl
  | cons st rest ih => intro c; rw [List.foldl_cons, List.foldl_cons]; exact ih _

lemma optionFold_none (sts : List String) :
    List.foldl (fun oc st => some (bucketInc (oc.getD {}) st)) none sts =
      if sts = [] then none else some (countsOfStatuses sts) := by
  cases sts with
  | nil => rfl
  | cons st rest =>
      rw [List.foldl_cons, if_neg (List.cons_ne_nil st rest)]
      have : (none : Option Counts).getD {} = {} := rfl
      rw [this, optionFold_some, ← List.foldl_cons, foldl_bucketInc_zero]

lemma byRoom_computeSummary (sk : Bool) (x : String) (hx : x ≠ "")
    (items : List ItemRecord) :
    assocGet (computeSummary sk items).byRoom x =
      List.foldl (fun oc st => some (bucketInc (oc.getD {}) st))
        none ((roomRecords sk x items).map statusOfRec) := by
  rw [computeSummary, byRoom_foldl sk x hx]
  rfl

/-- Room-sum / totals bookkeeping invariant `total = pass + fail + na + pending`. -/
def countsBalanced (c : Counts) : Prop :=
  c.total = c.pass + c.fail + c.na + c.pending

lemma countsBalanced_bucketInc {c : Counts} (h : countsBalanced c) (st : String) :
    countsBalanced (bucketInc c st) := by
  unfold countsBalanced bucketInc at *
  split_ifs <;> simp <;> omega

lemma countsBalanced_updateRoom {br : List (String × Counts)}
    (h : ∀ p ∈ br, countsBalanced p.2) (rid st : String) :
    ∀ p ∈ updateRoom br rid st, countsBalanced p.2 := by
  induction br with
  | nil =>
      intro p hp
      simp only [updateRoom, List.mem_singleton] at hp
      subst hp
      exact countsBalanced_bucketInc (by simp [countsBalanced]) st
  | cons q rest ih =>
      obtain ⟨k, c⟩ := q
      intro p hp
      by_cases hk : k = rid
      · subst hk
        rw [show updateRoom ((k, c) :: rest) k st = (k, bucketInc c st) :: rest from by
          simp [updateRoom]] at hp
        rcases List.mem_cons.mp hp with hp | hp
        · subst hp
          exact countsBalanced_bucketInc (h (k, c) (List.mem_cons_self _ _)) st
        · exact h p (List.mem_cons_of_mem _ hp)
      · rw [show updateRoom ((k, c) :: rest) rid st = (k, c) :: updateRoom rest rid st from by
          simp [updateRoom, hk]] at hp
        rcases List.mem_cons.mp hp with hp | hp
        · subst hp; exact h (k, c) (List.mem_cons_self _ _)
        · exact ih (fun q hq => h q (List.mem_cons_of_mem _ hq)) p hp

lemma countsBalanced_foldl (sk : Bool) (l : List ItemRecord) :
    ∀ acc : SummaryData, countsBalanced acc.totals →
      (∀ p ∈ acc.byRoom, countsBalanced p.2) →
      countsBalanced (List.foldl (summaryStep sk) acc l).totals ∧
        ∀ p ∈ (List.foldl (summaryStep sk) acc l).byRoom, countsBalanced p.2 := by
  induction l with
  | nil => intro acc h1 h2; exact ⟨h1, h2⟩
  | cons a t ih =>
      intro acc h1 h2
      rw [List.foldl_cons]
      by_cases h : summaryCounted sk a
      · refine ih _ ?_ ?_
        · simpa [summaryStep, h] using countsBalanced_bucketInc h1 (statusOfRec a)
        · simp only [summaryStep, h, if_true]
          by_cases hra : ridOf a = ""
          · simpa [hra] using h2
          · simpa [hra] using countsBalanced_updateRoom h2 (ridOf a) (statusOfRec a)
      · simpa [summaryStep, h] using ih acc h1 h2

/-- C5: the summary aggregator counts exactly the non-`__meta__` records
carrying an item id; the global counters are the per-status counts of
those records' normalized statuses (unrecognized or absent counting as
pending, `total` being their number); for every non-empty room id `x`, the
`byRoom` entry for `x` is the same counting over the counted records whose
room id resolves to `x` (absent when there is none — per-room counting is
skipped for records without a room id); and both the global counters and
every per-room counter satisfy `total = pass + fail + na + pending`. -/
theorem c5_summary_bucketing (sk : Bool) (items : List ItemRecord) :
    (computeSummary sk items).totals =
        countsOfStatuses ((countedItems sk items).map statusOfRec) ∧
    (∀ x, x ≠ "" →
      assocGet (computeSummary sk items).byRoom x =
        (if roomRecords sk x items = [] then none
         else some (countsOfStatuses ((roomRecords sk x items).map statusOfRec)))) ∧
    countsBalanced (computeSummary sk items).totals ∧
    (∀ p ∈ (computeSummary sk items).byRoom, countsBalanced p.2) := by
  have hbal := countsBalanced_foldl sk items {} (by simp [countsBalanced]) (by simp)
  refine ⟨?_, ?_, hbal.1, hbal.2⟩
  · rw [computeSummary, totals_foldl]
    exact foldl_bucketInc_zero _
  · intro x hx
    rw [byRoom_computeSummary sk x hx, optionFold_none]
    by_cases hrr : roomRecords sk x items = []
    · simp [hrr]
    · simp [hrr, List.map_eq_nil_iff]

/-- Sample item list for the summary witnesses: one record in room R1 with
status `Pass`, one record without a room whose status is unrecognized. -/
def sampleSummaryItems : List ItemRecord :=
  [ { sk := some "R1#i1", itemId := some "i1", roomId := some "R1",
      status := some "Pass" },
    { sk := some "None#i2", itemId := some "i2", status := some "weird" } ]

/-- Witness for C5 at a concrete item list, instantiating the per-room
conjunct at room `R1`. -/
theorem c5_summary_bucketing_witness :
    (computeSummary true sampleSummaryItems).totals =
        countsOfStatuses ((countedItems true sampleSummaryItems).map statusOfRec) ∧
    assocGet (computeSummary true sampleSummaryItems).byRoom "R1" =
      (if roomRecords true "R1" sampleSummaryItems = [] then none
       else some (countsOfStatuses
          ((roomRecords true "R1" sampleSummaryItems).map statusOfRec))) := by
  have h := c5_summary_bucketing true sampleSummaryItems
  exact ⟨h.1, h.2.1 "R1" (by decide)⟩

/-! ### Totals versus per-room sums (claim C6) -/

/-- Sum of the cached `total` fields over all rooms. -/
def sumRoomTotals (br : List (String × Counts)) : Nat :=
  (br.map fun p => p.2.total).sum

lemma bucketInc_total (c : Counts) (st : String) :
    (bucketInc c st).total = c.total + 1 := by
  unfold bucketInc
  split_ifs <;> rfl

lemma sumRoomTotals_updateRoom (br : List (String × Counts)) (rid st : String) :
    sumRoomTotals (updateRoom br rid st) = sumRoomTotals br + 1 := by
  induction br with
  | nil => simp [updateRoom, sumRoomTotals, bucketInc_total]
  | cons q rest ih =>
      obtain ⟨k, c⟩ := q
      by_cases hk : k = rid
      · simp [updateRoom, hk, sumRoomTotals, bucketInc_total]
        omega
      · simp only [updateRoom, if_neg hk]
        simp [sumRoomTotals] at ih ⊢
        omega

lemma computeSummary_total (sk : Bool) (items : List ItemRecord) :
    (computeSummary sk items).totals.total = (countedItems sk items).length := by
  rw [computeSummary, totals_foldl]
  show (List.foldl bucketInc {} ((countedItems sk items).map statusOfRec)).total = _
  rw [foldl_bucketInc_zero]
  simp [countsOfStatuses]

lemma sumRoom_foldl (sk : Bool) (l : List ItemRecord) : ∀ acc : SummaryData,
    sumRoomTotals (List.foldl (summaryStep sk) acc l).byRoom =
      sumRoomTotals acc.byRoom +
        ((countedItems sk l).filter fun r => !decide (ridOf r = "")).length := by
  induction l with
  | nil => intro acc; simp [countedItems]
  | cons a t ih =>
      intro acc
      rw [List.foldl_cons, ih]
      by_cases h : summaryCounted sk a
      · by_cases hra : ridOf a = ""
        · simp [countedItems, summaryStep, h, hra, List.filter_cons]
        · simp only [countedItems, summaryStep, h, if_true, if_neg hra,
            List.filter_cons] at *
          rw [sumRoomTotals_updateRoom]
          simp [List.length_cons, hra]
          omega
      · simp [countedItems, summaryStep, h, List.filter_cons]

lemma computeSummary_sumRoom (sk : Bool) (items : List ItemRecord) :
    sumRoomTotals (computeSummary sk items).byRoom =
      ((countedItems sk items).filter fun r => !decide (ridOf r = "")).length := by
  rw [computeSummary, sumRoom_foldl]
  simp [sumRoomTotals]

lemma length_filter_not_add {α : Type} (l : List α) (p : α → Bool) :
    (l.filter fun a => !p a).length + (l.filter p).length = l.length := by
  induction l with
  | nil => rfl
  | cons a t ih =>
      by_cases h : p a <;> simp [List.filter_cons, h] <;> omega

/-- C6 amended: in the summary the save pipeline caches, the global `total`
equals the sum of the per-room `total` fields plus the number of counted
records whose room id resolves to the empty string (absent room); equality
with the plain per-room sum holds exactly when every counted record has a
room id. -/
theorem c6_total_vs_room_sums (sk : Bool) (items : List ItemRecord) :
    (computeSummary sk items).totals.total =
      sumRoomTotals (computeSummary sk items).byRoom +
        ((countedItems sk items).filter fun r => decide (ridOf r = "")).length := by
  rw [computeSummary_total, computeSummary_sumRoom]
  exact (length_filter_not_add (countedItems sk items) fun r => decide (ridOf r = "")).symm

/-! ### Save orchestrator (`handler.py`) -/

/-- The nested `venue` object a save body may carry. -/
structure VenueRef where
  id : Option String := none
  name : Option String := none
deriving Repr, DecidableEq

/-- The nested `item` object (`ins.get('item')`) a save body may carry. -/
structure ItemRef where
  roomName : Option String := none
deriving Repr, DecidableEq

/-- One element of the `items` array of a save request. -/
structure ItemPayload where
  itemId : Option String := none
  id : Option String := none
  itemName : Option String := none
  name : Option String := none
  status : Option String := none
  notes : Option String := none
  comments : Option String := none
deriving Repr, DecidableEq

/-- The save request body after the `event_body.get('inspection') or
event_body` extraction (the `ins` dict of `handle_save_inspection`). -/
structure SaveBody where
  inspection_id : Option String := none
  id : Option String := none
  roomId : Option String := none
  room_id : Option String := none
  items : List ItemPayload := []
  createdBy : Option String := none
  updatedBy : Option String := none
  venueId : Option String := none
  venue_id : Option String := none
  venueName : Option String := none
  venue_name : Option String := none
  venue : Option VenueRef := none
  item : Option ItemRef := none
  status : Option String := none
  roomName : Option String := none
deriving Repr, DecidableEq

/-- The three response shapes of `handle_save_inspection`: an error
(400/403/500), the metadata-only early return, or the full item save with
`written` count, completeness result and refreshed metadata. -/
inductive SaveResp where
  | err (statusCode : Nat) (message : String)
  | savedMeta (inspection_id : String) (inspectionData : Option MetaRecord)
  | saved (written : Nat) (complete : Option CompletenessResult)
      (inspectionData : Option MetaRecord)
deriving Repr, DecidableEq

/-- The completed-inspection guard (`handler.py` lines 17-22): lowercased
status equals `completed`, or a truthy `completedAt`/`completed_at`. -/
def lockedMeta (m : MetaRecord) : Bool :=
  decide (lowerStr (tval m.status) = "completed") ||
    truthy (pyOr m.completedAt m.completed_at)

/-- Whether the stored metadata record locks the inspection. -/
def isLocked (s : Store) (iid : String) : Bool :=
  match s.getMeta iid with
  | some m => lockedMeta m
  | none => false

/-- The metadata-only `put_item` record built when `items` is empty
(`handler.py` lines 27-56).  `put_item` replaces the whole record, so every
attribute not listed here (cached `totals`/`byRoom` among them) is absent
from the stored record afterwards. -/
def metaOnlyRecord (s : Store) (now : String) (ins : SaveBody) (iid : String) :
    MetaRecord :=
  let existing := (s.getMeta iid).getD {}
  let created_by := pyOr ins.createdBy (pyOr ins.updatedBy (some "Unknown"))
  let venue_id_val := pyOr ins.venueId (pyOr ins.venue_id ((ins.venue.getD {}).id))
  let venue_name_val :=
    pyOr ins.venueName (pyOr ins.venue_name ((ins.venue.getD {}).name))
  { inspection_id := some iid,
    inspectionId := some iid,
    createdAt := pyOr existing.createdAt (some now),
    updatedAt := some now,
    createdBy := pyOr existing.createdBy created_by,
    updatedBy := pyOr ins.updatedBy (pyOr existing.createdBy created_by),
    venueId := match existing.venueId with
      | some v => some v
      | none => venue_id_val,
    venueName := match existing.venueName with
      | some v => some v
      | none => venue_name_val,
    status := pyOr ins.status (match s.getMeta iid with
      | some m => m.status
      | none => some "in-progress") }

/-- Python f-string rendering of an optional value (`None` prints as "None"). -/
def pyStr : Option String → String
  | none => "None"
  | some s => s

/-- Sort key `f"{room_id}#{item_id}"`, the composite key shape the item
upsert targets first (and which succeeds in this model). -/
def itemSortKey (room_id : Option String) (item_id : String) : String :=
  pyStr room_id ++ "#" ++ item_id

/-- The record stored by the item `update_item` (`handler.py` lines 85-137):
SET of every payload-derived attribute, `createdAt` through
`if_not_exists`, `venueId`/`venueName` only when the body carries them. -/
def builtItemRecord (existing : ItemRecord) (ins : SaveBody) (action_ts : String)
    (it : ItemPayload) (item_id : String) (room_id : Option String) (sk : String) :
    ItemRecord :=
  { existing with
    sk := some sk,
    updatedAt := some action_ts,
    createdAt := some (existing.createdAt.getD action_ts),
    status := it.status,
    comments := some (tval (pyOr it.notes it.comments)),
    roomId := room_id,
    roomName := pyOr ins.roomName ((ins.item.getD {}).roomName),
    itemId := some item_id,
    itemName := some (tval (pyOr it.itemName it.name)),
    venueId := match ins.venueId with
      | some v => some v
      | none => existing.venueId,
    venueName := match ins.venueName with
      | some v => some v
      | none => existing.venueName }

/-- One item upsert of the save loop at the composite key. -/
def upsertItemRecord (s : Store) (iid : String) (ins : SaveBody)
    (action_ts : String) (it : ItemPayload) (item_id : String) : Store :=
  s.putItem (iid, itemSortKey (pyOr ins.roomId ins.room_id) item_id)
    (builtItemRecord
      ((s.getItem (iid, itemSortKey (pyOr ins.roomId ins.room_id) item_id)).getD {})
      ins action_ts it item_id (pyOr ins.roomId ins.room_id)
      (itemSortKey (pyOr ins.roomId ins.room_id) item_id))

/-- The batch loop over `items` (`handler.py` lines 80-150): payloads without
a truthy `itemId`/`id` are skipped silently, the rest are upserted with the
shared action timestamp; `written` counts the performed writes. -/
def saveItemsLoop (iid : String) (ins : SaveBody) (action_ts : String)
    (items : List ItemPayload) (s : Store) : Store × Nat :=
  items.foldl
    (fun acc it =>
      if truthy (pyOr it.itemId it.id) then
        (upsertItemRecord acc.1 iid ins action_ts it (tval (pyOr it.itemId it.id)),
         acc.2 + 1)
      else acc)
    (s, 0)

/-- The cache refresh after the batch (`handler.py` lines 157-198): recompute
the summary and SET `totals`/`byRoom` on the metadata record. -/
def cacheSummary (s : Store) (iid : String) : Store :=
  s.putMeta iid
    { (s.getMeta iid).getD {} with
      totals := some (handle_get_inspection_summary s iid).totals,
      byRoom := some (handle_get_inspection_summary s iid).byRoom }

/-- The `updatedAt`/`updatedBy` metadata update after the batch
(`handler.py` lines 210-235), including the legacy REMOVE of a
present-but-falsy `completedAt` (a truthy one was rejected by the guard). -/
def touchMeta (s : Store) (iid : String) (ins : SaveBody) (action_ts : String) :
    Store :=
  let base := (s.getMeta iid).getD {}
  s.putMeta iid
    { base with
      updatedAt := some action_ts,
      updatedBy := pyOr ins.updatedBy ins.createdBy,
      venueId := match ins.venueId with
        | some v => some v
        | none => base.venueId,
      venueName := match ins.venueName with
        | some v => some v
        | none => base.venueName,
      completedAt := if base.completedAt.isSome then none else base.completedAt }

/-- Non-pass short-circuit over the submitted payload statuses
(`handler.py` line 243). -/
def providedNonPass (items : List ItemPayload) : Bool :=
  items.any fun it => !decide (lowerStr (tval it.status) = "pass")

/-- The completion transition (`handler.py` line 256): SET status,
`updatedAt`, `completedAt`, `updatedBy`. -/
def completeMeta (s : Store) (iid : String) (ins : SaveBody) (now : String) :
    Store :=
  s.putMeta iid
    { (s.getMeta iid).getD {} with
      status := some "completed",
      updatedAt := some now,
      completedAt := some now,
      updatedBy := pyOr ins.updatedBy ins.createdBy }

/-- The item-path tail of the handler after the lock and empty-items
branches: batch write, cache refresh, metadata touch, completeness
evaluation (with the non-pass short-circuit and the venue-id gate), and the
conditional completion transition. -/
def saveWithItems (s : Store) (now : String) (ins : SaveBody) (iid : String) :
    SaveResp × Store :=
  let sw := saveItemsLoop iid ins now ins.items s
  let s3 := touchMeta (cacheSummary sw.1 iid) iid ins now
  let completeness : Option CompletenessResult :=
    if truthy ins.venueId then
      if providedNonPass ins.items then
        some { complete := false, reason := some "non-pass item in provided payload" }
      else some (check_inspection_complete s3 iid (tval ins.venueId))
    else none
  let s4 :=
    match completeness with
    | some c => if c.complete then completeMeta s3 iid ins now else s3
    | none => s3
  (.saved sw.2 completeness (s4.getMeta iid), s4)

/-- Translation of `handle_save_inspection` (`handler.py`): validation,
completed-inspection lock, metadata-only path for empty `items`, and the
full item path. -/
def handle_save_inspection (s : Store) (now : String) (ins : SaveBody) :
    SaveResp × Store :=
  if truthy (pyOr ins.inspection_id ins.id) then
    if isLocked s (tval (pyOr ins.inspection_id ins.id)) then
      (.err 403 "Cannot modify completed inspection", s)
    else if ins.items.length = 0 then
      (.savedMeta (tval (pyOr ins.inspection_id ins.id))
        ((s.putMeta (tval (pyOr ins.inspection_id ins.id))
            (metaOnlyRecord s now ins (tval (pyOr ins.inspection_id ins.id)))).getMeta
          (tval (pyOr ins.inspection_id ins.id))),
       s.putMeta (tval (pyOr ins.inspection_id ins.id))
         (metaOnlyRecord s now ins (tval (pyOr ins.inspection_id ins.id))))
    else
      saveWithItems s now ins (tval (pyOr ins.inspection_id ins.id))
  else
    (.err 400 "inspection_id is required", s)

lemma assocGet_put {κ α : Type} [DecidableEq κ] (l : List (κ × α)) (k : κ) (v : α) :
    assocGet (assocPut l k v) k = some v := by
  induction l with
  | nil => simp [assocPut, assocGet]
  | cons p rest ih =>
      obtain ⟨k0, v0⟩ := p
      by_cases h : k0 = k
      · simp [assocPut, h, assocGet]
      · simp [assocPut, h, assocGet, ih]

lemma assocGet_put_ne {κ α : Type} [DecidableEq κ] (l : List (κ × α)) (k k' : κ)
    (v : α) (h : k ≠ k') :
    assocGet (assocPut l k v) k' = assocGet l k' := by
  induction l with
  | nil => simp [assocPut, assocGet, h]
  | cons p rest ih =>
      obtain ⟨k0, v0⟩ := p
      by_cases h0 : k0 = k
      · subst h0
        simp [assocPut, assocGet, h]
      · simp [assocPut, h0, assocGet, ih]

lemma getMeta_putMeta (s : Store) (iid : String) (m : MetaRecord) :
    (s.putMeta iid m).getMeta iid = some m := by
  simp [Store.putMeta, Store.getMeta, assocGet_put]

lemma getItem_putItem (s : Store) (k : String × String) (r : ItemRecord) :
    (s.putItem k r).getItem k = some r := by
  simp [Store.putItem, Store.getItem, assocGet_put]

/-- C2: when the stored metadata of the addressed inspection has status
`completed` (case-insensitively) or a truthy `completedAt`, the save
handler answers the 403 locked error and leaves the store — item records
and metadata alike — untouched. -/
theorem c2_locked_inspection_rejected (s : Store) (now : String) (ins : SaveBody)
    (m : MetaRecord)
    (hid : truthy (pyOr ins.inspection_id ins.id) = true)
    (hm : s.getMeta (tval (pyOr ins.inspection_id ins.id)) = some m)
    (hlock : lowerStr (tval m.status) = "completed" ∨ truthy m.completedAt = true) :
    handle_save_inspection s now ins =
      (.err 403 "Cannot modify completed inspection", s) := by
  have hL : isLocked s (tval (pyOr ins.inspection_id ins.id)) = true := by
    unfold isLocked
    rw [hm]
    unfold lockedMeta
    rcases hlock with h | h
    · simp [h]
    · simp [pyOr, h]
  unfold handle_save_inspection
  simp [hid, hL]

/-- Witness for C2: metadata with status `Completed`; the call is rejected
and the store is returned unchanged. -/
theorem c2_locked_inspection_rejected_witness :
    handle_save_inspection
      (Store.mk [] [("X", { status := some "Completed" })] []) "T1"
      { inspection_id := some "X",
        items := [{ itemId := some "i1", status := some "pass" }] } =
      (.err 403 "Cannot modify completed inspection",
       Store.mk [] [("X", { status := some "Completed" })] []) := by
  exact c2_locked_inspection_rejected _ "T1" _ { status := some "Completed" }
    (by decide) (by decide) (Or.inl (by decide))

/-- C7 counterexample: the metadata-only path uses `put_item`, a full
replace; an existing cached `totals` object is erased (becomes absent)
rather than left unchanged, refuting the frame part of the claim. -/
theorem c7_meta_put_counterexample :
    ((Store.mk []
        [("X", { status := some "in-progress",
                 totals := some ⟨1, 0, 0, 0, 1⟩,
                 byRoom := some [("R1", ⟨1, 0, 0, 0, 1⟩)] })] []).getMeta "X").map
        MetaRecord.totals = some (some ⟨1, 0, 0, 0, 1⟩) ∧
    (((handle_save_inspection
        (Store.mk []
          [("X", { status := some "in-progress",
                   totals := some ⟨1, 0, 0, 0, 1⟩,
                   byRoom := some [("R1", ⟨1, 0, 0, 0, 1⟩)] })] [])
        "T1" { inspection_id := some "X" }).2.getMeta "X").map
        MetaRecord.totals = some none) := by
  decide

/-- C7 amended: an empty-items save on a non-locked inspection performs the
metadata-only put and returns early (the `savedMeta` response shape, which
carries no completeness result): the stored record keeps a non-null
`venueId`/`venueName`, keeps `createdBy` when one was set (first writer
wins), refreshes `updatedAt`, but — being a full `put_item` replace of only
the listed fields — leaves the cached `totals`/`byRoom` absent rather than
unchanged. -/
theorem c7_meta_only_merge (s : Store) (now : String) (ins : SaveBody)
    (hid : truthy (pyOr ins.inspection_id ins.id) = true)
    (hnl : isLocked s (tval (pyOr ins.inspection_id ins.id)) = false)
    (hempty : ins.items = []) :
    ∃ r : MetaRecord,
      handle_save_inspection s now ins =
        (.savedMeta (tval (pyOr ins.inspection_id ins.id)) (some r),
         s.putMeta (tval (pyOr ins.inspection_id ins.id)) r) ∧
      r.updatedAt = some now ∧
      (∀ m0, s.getMeta (tval (pyOr ins.inspection_id ins.id)) = some m0 →
        ∀ v, m0.venueId = some v → r.venueId = some v) ∧
      (∀ m0, s.getMeta (tval (pyOr ins.inspection_id ins.id)) = some m0 →
        ∀ v, m0.venueName = some v → r.venueName = some v) ∧
      (∀ m0, s.getMeta (tval (pyOr ins.inspection_id ins.id)) = some m0 →
        truthy m0.createdBy = true → r.createdBy = m0.createdBy) ∧
      r.totals = none ∧ r.byRoom = none := by
  refine ⟨metaOnlyRecord s now ins (tval (pyOr ins.inspection_id ins.id)),
    ?_, rfl, ?_, ?_, ?_, rfl, rfl⟩
  · unfold handle_save_inspection
    simp [hid, hnl, hempty, getMeta_putMeta]
  · intro m0 hm0 v hv
    simp [metaOnlyRecord, hm0, hv]
  · intro m0 hm0 v hv
    simp [metaOnlyRecord, hm0, hv]
  · intro m0 hm0 hcb
    simp only [metaOnlyRecord]
    rw [hm0]
    simp [pyOr, hcb]

/-- Witness for the amended C7: existing metadata with a venue name and
creator; the empty-items save keeps both, refreshes `updatedAt`, and stores
no cached totals. -/
theorem c7_meta_only_merge_witness :
    ∃ r : MetaRecord,
      handle_save_inspection
        (Store.mk []
          [("X", { venueName := some "Hall A", createdBy := some "Ann",
                   status := some "in-progress" })] [])
        "T2" { inspection_id := some "X", updatedBy := some "Bob" } =
        (.savedMeta "X" (some r),
         (Store.mk []
           [("X", { venueName := some "Hall A", createdBy := some "Ann",
                    status := some "in-progress" })] []).putMeta "X" r) ∧
      r.updatedAt = some "T2" ∧
      (∀ m0, (Store.mk []
          [("X", { venueName := some "Hall A", createdBy := some "Ann",
                   status := some "in-progress" })] []).getMeta "X" = some m0 →
        ∀ v, m0.venueId = some v → r.venueId = some v) ∧
      (∀ m0, (Store.mk []
          [("X", { venueName := some "Hall A", createdBy := some "Ann",
                   status := some "in-progress" })] []).getMeta "X" = some m0 →
        ∀ v, m0.venueName = some v → r.venueName = some v) ∧
      (∀ m0, (Store.mk []
          [("X", { venueName := some "Hall A", createdBy := some "Ann",
                   status := some "in-progress" })] []).getMeta "X" = some m0 →
        truthy m0.createdBy = true → r.createdBy = m0.createdBy) ∧
      r.totals = none ∧ r.byRoom = none := by
  exact c7_meta_only_merge _ "T2" _ (by decide) (by decide) (by decide)

/-- C8: the item upsert is idempotent modulo `updatedAt`: a second upsert
with the same payload stores the same record with only `updatedAt` moved to
the new batch timestamp; `createdAt` is assigned on first write and every
later upsert of the same `(inspectionId, roomId, itemId)` key preserves an
already-set `createdAt`. -/
theorem c8_idempotent_upsert (s : Store) (iid : String) (ins : SaveBody)
    (ts1 ts2 : String) (p : ItemPayload) (item_id : String) :
    ∃ r1 : ItemRecord,
      (upsertItemRecord s iid ins ts1 p item_id).getItem
          (iid, itemSortKey (pyOr ins.roomId ins.room_id) item_id) = some r1 ∧
      (upsertItemRecord (upsertItemRecord s iid ins ts1 p item_id)
            iid ins ts2 p item_id).getItem
          (iid, itemSortKey (pyOr ins.roomId ins.room_id) item_id) =
        some { r1 with updatedAt := some ts2 } ∧
      (s.getItem (iid, itemSortKey (pyOr ins.roomId ins.room_id) item_id) = none →
        r1.createdAt = some ts1) ∧
      (∀ (s2 : Store) (ins2 : SaveBody) (ts3 : String) (p2 : ItemPayload)
          (r2 : ItemRecord),
        pyOr ins2.roomId ins2.room_id = pyOr ins.roomId ins.room_id →
        s2.getItem (iid, itemSortKey (pyOr ins.roomId ins.room_id) item_id) = some r2 →
        ∃ r3 : ItemRecord,
          (upsertItemRecord s2 iid ins2 ts3 p2 item_id).getItem
              (iid, itemSortKey (pyOr ins.roomId ins.room_id) item_id) = some r3 ∧
          (r2.createdAt.isSome → r3.createdAt = r2.createdAt)) := by
  refine ⟨builtItemRecord
      ((s.getItem (iid, itemSortKey (pyOr ins.roomId ins.room_id) item_id)).getD {})
      ins ts1 p item_id (pyOr ins.roomId ins.room_id)
      (itemSortKey (pyOr ins.roomId ins.room_id) item_id),
    ?_, ?_, ?_, ?_⟩
  · rw [upsertItemRecord, getItem_putItem]
  · rw [upsertItemRecord, upsertItemRecord, getItem_putItem]
    rw [getItem_putItem]
    cases hv : ins.venueId <;> cases hn : ins.venueName <;>
      simp [builtItemRecord, hv, hn]
  · intro hnone
    simp [builtItemRecord, hnone]
  · intro s2 ins2 ts3 p2 r2 hroom hr2
    refine ⟨builtItemRecord
        ((s2.getItem (iid, itemSortKey (pyOr ins2.roomId ins2.room_id) item_id)).getD {})
        ins2 ts3 p2 item_id (pyOr ins2.roomId ins2.room_id)
        (itemSortKey (pyOr ins2.roomId ins2.room_id) item_id), ?_, ?_⟩
    · rw [upsertItemRecord, hroom, getItem_putItem]
    · intro hcr
      rw [hroom, hr2]
      simp [builtItemRecord]
      obtain ⟨c, hc⟩ := Option.isSome_iff_exists.mp hcr
      simp [hc]

/-- Witness for C8 at a concrete store and payload. -/
theorem c8_idempotent_upsert_witness :
    ∃ r1 : ItemRecord,
      (upsertItemRecord (Store.mk [] [] []) "X"
          { inspection_id := some "X", roomId := some "R1" } "T1"
          { itemId := some "i1", status := some "pass" } "i1").getItem
          ("X", itemSortKey (pyOr (some "R1") none) "i1") = some r1 ∧
      (upsertItemRecord
          (upsertItemRecord (Store.mk [] [] []) "X"
            { inspection_id := some "X", roomId := some "R1" } "T1"
            { itemId := some "i1", status := some "pass" } "i1") "X"
          { inspection_id := some "X", roomId := some "R1" } "T9"
          { itemId := some "i1", status := some "pass" } "i1").getItem
          ("X", itemSortKey (pyOr (some "R1") none) "i1") =
        some { r1 with updatedAt := some "T9" } ∧
      ((Store.mk [] [] []).getItem ("X", itemSortKey (pyOr (some "R1") none) "i1")
          = none → r1.createdAt = some "T1") ∧
      (∀ (s2 : Store) (ins2 : SaveBody) (ts3 : String) (p2 : ItemPayload)
          (r2 : ItemRecord),
        pyOr ins2.roomId ins2.room_id = pyOr (some "R1") none →
        s2.getItem ("X", itemSortKey (pyOr (some "R1") none) "i1") = some r2 →
        ∃ r3 : ItemRecord,
          (upsertItemRecord s2 "X" ins2 ts3 p2 "i1").getItem
              ("X", itemSortKey (pyOr (some "R1") none) "i1") = some r3 ∧
          (r2.createdAt.isSome → r3.createdAt = r2.createdAt)) := by
  exact c8_idempotent_upsert (Store.mk [] [] []) "X"
    { inspection_id := some "X", roomId := some "R1" } "T1" "T9"
    { itemId := some "i1", status := some "pass" } "i1"

/-- C10: a payload element carrying neither `itemId` nor `id` is skipped by
the batch loop of `handle_save_inspection`: it writes nothing, raises no
error, does not increment the returned `written` count, and the remaining
payloads are processed exactly as if it were not there. -/
theorem c10_itemless_payload_skipped (iid : String) (ins : SaveBody)
    (ts : String) (s : Store) (l1 l2 : List ItemPayload) (p : ItemPayload)
    (h1 : p.itemId = none) (h2 : p.id = none) :
    saveItemsLoop iid ins ts (l1 ++ p :: l2) s =
      saveItemsLoop iid ins ts (l1 ++ l2) s := by
  unfold saveItemsLoop
  rw [List.foldl_append, List.foldl_append, List.foldl_cons]
  congr 1
  simp [h1, h2, pyOr, truthy]

/-- Witness for C10: a two-element batch whose middle element lacks ids. -/
theorem c10_itemless_payload_skipped_witness :
    saveItemsLoop "X" { inspection_id := some "X", roomId := some "R1" } "T1"
      ([{ itemId := some "i1", status := some "pass" }] ++
        { status := some "fail" } :: [{ itemId := some "i2", status := some "na" }])
      (Store.mk [] [] []) =
    saveItemsLoop "X" { inspection_id := some "X", roomId := some "R1" } "T1"
      ([{ itemId := some "i1", status := some "pass" }] ++
        [{ itemId := some "i2", status := some "na" }])
      (Store.mk [] [] []) := by
  exact c10_itemless_payload_skipped "X" _ "T1" _ _ _ _ rfl rfl

/-- C6 counterexample: a successful save of one pass item submitted without
a `roomId` caches `totals.total = 1` but an empty `byRoom`, so the cached
record violates `totals.total = sum of byRoom totals`. -/
theorem c6_cached_totals_counterexample :
    ((handle_save_inspection (Store.mk [] [] []) "T1"
        { inspection_id := some "X",
          items := [{ itemId := some "i1", status := some "pass" }] }).2.getMeta
        "X").map (fun m => (m.totals, m.byRoom)) =
      some (some ⟨1, 0, 0, 0, 1⟩, some []) ∧
    sumRoomTotals [] ≠ 1 := by
  decide

/-! ### Listing (`list_inspections.py`) -/

/-- A JSON scalar as the `completed_limit` field may arrive. -/
inductive JVal where
  | num (n : Int)
  | str (s : String)
deriving Repr, DecidableEq

/-- Python truthiness of an optional JSON scalar (0 and the empty string
are falsy). -/
def jTruthy : Option JVal → Bool
  | none => false
  | some (.num n) => decide (n ≠ 0)
  | some (.str s) => !s.isEmpty

/-- Python `a or b` on optional JSON scalars. -/
def pyOrJ (a b : Option JVal) : Option JVal := if jTruthy a then a else b

/-- Decimal digit value of a character, when it is one. -/
def digitVal (c : Char) : Option Nat :=
  if 48 ≤ c.toNat ∧ c.toNat ≤ 57 then some (c.toNat - 48) else none

/-- Digit-run accumulator of the integer parser. -/
def parseDigits : List Char → Nat → Option Nat
  | [], acc => some acc
  | c :: rest, acc =>
      match digitVal c with
      | some d => parseDigits rest (acc * 10 + d)
      | none => none

/-- Python `int()` on a string: an optional sign followed by at least one
decimal digit; `none` models the raised ValueError. -/
def parseIntStr (s : String) : Option Int :=
  match s.data with
  | [] => none
  | '-' :: rest =>
      if rest.isEmpty then none else (parseDigits rest 0).map fun n => -(n : Int)
  | '+' :: rest =>
      if rest.isEmpty then none else (parseDigits rest 0).map fun n => (n : Int)
  | cs => (parseDigits cs 0).map fun n => (n : Int)

/-- `int(x)` on a JSON scalar: identity on integers, digit parsing on
strings; `none` models the raised ValueError. -/
def jToInt : JVal → Option Int
  | .num n => some n
  | .str s => parseIntStr s

/-- `DEFAULT_COMPLETED_LIMIT` (`list_inspections.py` line 22). -/
def DEFAULT_COMPLETED_LIMIT : Int := 6

/-- The limit parsing (`list_inspections.py` lines 72-79): a truthiness
`or` chain over `completed_limit`/`completedLimit`, then `int()` applied
when the chain produced a value, keeping the default on absence or parse
failure. -/
def parseCompletedLimit (completed_limit completedLimit : Option JVal) : Int :=
  match pyOrJ completed_limit completedLimit with
  | none => DEFAULT_COMPLETED_LIMIT
  | some v => (jToInt v).getD DEFAULT_COMPLETED_LIMIT

/-- The request body of `handle_list_inspections`. -/
structure ListBody where
  completed_limit : Option JVal := none
  completedLimit : Option JVal := none
deriving Repr, DecidableEq

/-- Membership in the sparse `status-completedAt-index` under the
`status = completed` key condition: the record carries both index keys and
its status is exactly `completed`. -/
def inCompletedIndex (m : MetaRecord) : Bool :=
  decide (m.status = some "completed") && m.completedAt.isSome

/-- Sort key of the index: the `completedAt` string. -/
def completedKey (m : MetaRecord) : String := tval m.completedAt

/-- Descending order on the index sort key (most recent first). -/
def completedGE (a b : MetaRecord) : Prop := completedKey b ≤ completedKey a

instance : DecidableRel completedGE := fun a b =>
  inferInstanceAs (Decidable (completedKey b ≤ completedKey a))

instance : IsTotal MetaRecord completedGE :=
  ⟨fun a b => le_total (completedKey b) (completedKey a)⟩

instance : IsTrans MetaRecord completedGE :=
  ⟨fun _ _ _ hab hbc => le_trans hbc hab⟩

/-- The GSI query for completed inspections (lines 88-111): records of the
sparse index, served sorted by `completedAt` descending; a positive limit
truncates, a negative one returns everything. -/
def completedQuery (metas : List MetaRecord) (limit : Int) : List MetaRecord :=
  if limit > 0 then
    ((metas.filter inCompletedIndex).insertionSort completedGE).take limit.toNat
  else (metas.filter inCompletedIndex).insertionSort completedGE

/-- Python truthiness of an optional mapping (absent and empty are falsy). -/
def lTruthy : Option (List (String × Counts)) → Bool
  | some (_ :: _) => true
  | _ => false

/-- Python `a or b` on optional mappings. -/
def pyOrL (a b : Option (List (String × Counts))) :
    Option (List (String × Counts)) :=
  if lTruthy a then a else b

/-- The canonical row shape produced by `normalize_item`. -/
structure NormRow where
  inspection_id : Option String
  venueId : Option String
  venueName : Option String
  createdBy : Option String
  updatedBy : Option String
  createdAt : Option String
  updatedAt : Option String
  status : String
  totals : Option Counts
  byRoom : Option (List (String × Counts))
  completedAt : Option String
deriving Repr, DecidableEq

/-- `normalize_item` (`list_inspections.py` lines 169-191): alias
resolution, lowercased status defaulting to `in-progress`, cached
`totals`/`byRoom` passed through (an empty `byRoom` mapping is falsy and
becomes absent), `completedAt` present only when truthy. -/
def normalizeItem (m : MetaRecord) : NormRow :=
  { inspection_id := pyOr m.inspection_id (pyOr m.inspectionId m.id),
    venueId := pyOr m.venueId m.venue_id,
    venueName := pyOr m.venueName (pyOr m.venue_name none),
    createdBy := pyOr m.createdBy m.created_by,
    updatedBy := pyOr m.updatedBy m.updated_by,
    createdAt := pyOr m.createdAt m.created_at,
    updatedAt := pyOr m.updatedAt m.updated_at,
    status := lowerStr (tval (pyOr m.status (some "in-progress"))),
    totals := m.totals,
    byRoom :=
      if lTruthy (pyOrL m.byRoom m.by_room) then pyOrL m.byRoom m.by_room else none,
    completedAt := pyOr m.completedAt (pyOr m.completed_at none) }

/-- The scan filter for ongoing inspections:
`attribute_not_exists(status) OR status <> 'completed'`. -/
def ongoingFilter (m : MetaRecord) : Bool :=
  !decide (m.status = some "completed")

/-- The `{completed, ongoing}` body of the listing response. -/
structure ListResult where
  completed : List NormRow
  ongoing : List NormRow
deriving Repr, DecidableEq

/-- Translation of `handle_list_inspections` (`list_inspections.py`) on the
metadata table contents: limit parsing, the (skipped-when-zero) sparse GSI
query, the ongoing scan, and row normalization. -/
def handle_list_inspections (metas : List MetaRecord) (body : ListBody) :
    ListResult :=
  { completed :=
      (if parseCompletedLimit body.completed_limit body.completedLimit = 0 then []
       else completedQuery metas
         (parseCompletedLimit body.completed_limit body.completedLimit)).map
        normalizeItem,
    ongoing := (metas.filter ongoingFilter).map normalizeItem }

/-- Number of completed rows served for a parsed limit over a pool of the
given size: zero for 0, the limit for a positive one, everything for a
negative one. -/
def limitCount (n : Int) (len : Nat) : Nat :=
  if n = 0 then 0 else if n > 0 then n.toNat else len

/-- C9 counterexample: with `completed_limit = 0` passed under its
snake-case key, 0 is falsy, the alias chain yields no value and the
default limit 6 applies, so `completed` is not empty — refuting the claim
that 0 yields an empty completed sequence.  The same store also shows a
completed record without `completedAt` (record `B`) appearing in neither
sequence, since the sparse index omits it and the ongoing scan excludes
status `completed`. -/
theorem c9_zero_limit_counterexample :
    (handle_list_inspections
        [ { inspection_id := some "A", status := some "completed",
            completedAt := some "2024-01-02" },
          { inspection_id := some "B", status := some "completed" } ]
        { completed_limit := some (.num 0) }).completed ≠ [] ∧
    (∀ row ∈ (handle_list_inspections
        [ { inspection_id := some "A", status := some "completed",
            completedAt := some "2024-01-02" },
          { inspection_id := some "B", status := some "completed" } ]
        { completed_limit := some (.num 0) }).completed,
      row.inspection_id ≠ some "B") ∧
    (∀ row ∈ (handle_list_inspections
        [ { inspection_id := some "A", status := some "completed",
            completedAt := some "2024-01-02" },
          { inspection_id := some "B", status := some "completed" } ]
        { completed_limit := some (.num 0) }).ongoing,
      row.inspection_id ≠ some "B") := by
  decide

/-- C9 amended: `ongoing` is every metadata record whose status is not
exactly `completed`, normalized, and `completed` is a prefix of the sparse
index pool (records with status `completed` and a `completedAt` value)
sorted by `completedAt` descending: the whole pool for a negative parsed
limit, none of it for 0, the topmost N for a positive N.  The limit parses
with default 6 when both keys are absent or the value unparsable; 0 takes
effect only through the `completedLimit` key — a snake-case
`completed_limit` of 0 is falsy and falls back to the default. -/
theorem c9_list_partition (metas : List MetaRecord) (body : ListBody) :
    (handle_list_inspections metas body).ongoing =
      (metas.filter ongoingFilter).map normalizeItem ∧
    (∃ pool : List MetaRecord,
      List.Sorted completedGE pool ∧
      pool.Perm (metas.filter inCompletedIndex) ∧
      (handle_list_inspections metas body).completed =
        (pool.take (limitCount
          (parseCompletedLimit body.completed_limit body.completedLimit)
          pool.length)).map normalizeItem) ∧
    parseCompletedLimit none none = DEFAULT_COMPLETED_LIMIT ∧
    parseCompletedLimit none (some (.num 0)) = 0 ∧
    parseCompletedLimit (some (.num 0)) none = DEFAULT_COMPLETED_LIMIT ∧
    (∀ (v : JVal) (b : Option JVal),
      jTruthy (some v) = true → jToInt v = none →
      parseCompletedLimit (some v) b = DEFAULT_COMPLETED_LIMIT) := by
  refine ⟨rfl,
    ⟨(metas.filter inCompletedIndex).insertionSort completedGE,
      List.sorted_insertionSort completedGE _,
      List.perm_insertionSort completedGE _, ?_⟩,
    rfl, rfl, rfl, ?_⟩
  · unfold handle_list_inspections completedQuery limitCount
    by_cases hN0 : parseCompletedLimit body.completed_limit body.completedLimit = 0
    · simp [hN0]
    · by_cases hNpos : parseCompletedLimit body.completed_limit body.completedLimit > 0
      · simp [hN0, hNpos]
      · simp [hN0, hNpos, List.take_length]
  · intro v b hv hparse
    unfold parseCompletedLimit pyOrJ
    simp [hv, hparse]

/-- Witness for the amended C9, exercising the unparsable-limit clause at a
concrete string. -/
theorem c9_list_partition_witness :
    parseCompletedLimit (some (.str "abc")) none = DEFAULT_COMPLETED_LIMIT := by
  exact (c9_list_partition [] {}).2.2.2.2.2 (.str "abc") none (by decide) (by decide)

end InspectionApp
